import Mathlib

/-!
Verification development for the neurosift-kerchunker workflow scripts.

The definitions below are a shallow embedding of the Python sources under
src/workflow_scripts/ (dandi_lindi.py, dandi_kerchunk.py,
create_global_index.py, create_neurodata_types_index.py, NWBTyped.py).
Python strings are modelled by Lean String, Python dicts by association
lists or structures with Option fields (a missing key is none), network
effects by explicit state records, and exceptions by Except.
-/

/-- Python str.endswith, modelled as a suffix test on the character data. -/
def endsWith (s t : String) : Bool :=
  t.data.isSuffixOf s.data

/-- An asset path names an NWB file when it ends in ".nwb"
(the test used by every per-dandiset crawl loop). -/
def isNwb (path : String) : Bool :=
  endsWith path ".nwb"

/-- The value found at a ".zattrs" key of the "refs" map of a manifest, as
inspected by _get_neurodata_types_for_zarr_json: only its "neurodata_type"
entry matters, absent modelled as none. -/
structure Zattrs where
  neurodata_type : Option String
deriving DecidableEq

/-- The generationMetadata object of a downloaded JSON document, read with
dict.get so each field may be absent.  Used by the skip checks of
process_asset (dandi_lindi.py) and by the version check of
create_global_index.py / create_neurodata_types_index.py. -/
structure GenMetaPartial where
  generatedBy : Option String
  generatedByVersion : Option Int
deriving DecidableEq

/-- The empty dict default of info.get("generationMetadata", \x7b\x7d). -/
def GenMetaPartial.empty : GenMetaPartial :=
  ⟨none, none⟩

/-- A downloaded manifest (zarr.json / nwb.lindi.json) as far as the index
scripts inspect it: the "refs" map (none when the key is missing) and the
optional generationMetadata. -/
structure ZarrJson where
  refs : Option (List (String × Zattrs))
  generationMetadata : Option GenMetaPartial
deriving DecidableEq

/-- Python truthiness of an optional string value: a present, non-empty
string.  Models the `if ndt:` guard. -/
def truthy : Option String → Option String
  | some s => if s = "" then none else some s
  | none => none

/-- The multiset of truthy "neurodata_type" values of the ".zattrs" entries
of the manifest's "refs" map, in refs order (the loop body of
_get_neurodata_types_for_zarr_json before set-insertion). -/
def collectNeurodataTypes (zarr_json : ZarrJson) : List String :=
  (zarr_json.refs.getD []).filterMap fun kv =>
    if endsWith kv.1 ".zattrs" then truthy kv.2.neurodata_type else none

/-- _get_neurodata_types_for_zarr_json (create_global_index.py lines 121-130,
create_neurodata_types_index.py lines 161-170): accumulate the truthy
neurodata_type values of ".zattrs" entries into a set and return
sorted(set); a Python set followed by sorted is modelled by dedup followed
by insertion sort under the lexicographic order on String. -/
def _get_neurodata_types_for_zarr_json (zarr_json : ZarrJson) : List String :=
  List.insertionSort (· ≤ ·) (collectNeurodataTypes zarr_json).dedup

/-- The outcome of the HEAD request issued by _remote_file_exists: either a
response with a status code, or an HTTPError carrying a status code. -/
inductive HeadOutcome where
  | success (code : Nat)
  | httpError (code : Nat)
deriving DecidableEq

/-- _remote_file_exists (dandi_lindi.py lines 239-252, dandi_kerchunk.py
lines 133-146, and identically in the index scripts): on a response,
return getcode() == 200; on an HTTPError, return False for 404 and
re-raise (Except.error) any other code. -/
def _remote_file_exists : HeadOutcome → Except Nat Bool
  | .success code => .ok (code == 200)
  | .httpError code => if code == 404 then .ok false else .error code

/-- The retry loop of _upload_file_to_s3 (dandi_lindi.py lines 303-313,
create_global_index.py lines 189-199): `outcome i` is none when the
(i+1)-st upload attempt succeeds and `some e` when it raises e.  The loop
body is `try: upload; break / except: num_retries -= 1; if num_retries == 0:
raise`.  The counter is initialised to 3 and only decremented, so it is
at least 1 whenever an attempt fails; for r at least 1 the cases below are
exact (r of 0 or 1 decrements to 0 and re-raises).  On success the loop
returns the number of attempts made. -/
def uploadLoop {ε : Type} (outcome : Nat → Option ε) : Nat → Nat → Except ε Nat
  | attempt, 0 =>
    match outcome attempt with
    | none => .ok (attempt + 1)
    | some e => .error e
  | attempt, 1 =>
    match outcome attempt with
    | none => .ok (attempt + 1)
    | some e => .error e
  | attempt, r + 2 =>
    match outcome attempt with
    | none => .ok (attempt + 1)
    | some _ => uploadLoop outcome (attempt + 1) (r + 1)

/-- _upload_file_to_s3's retry behaviour: enter the loop with
num_retries = 3 at the first attempt. -/
def _upload_file_to_s3 {ε : Type} (outcome : Nat → Option ε) : Except ε Nat :=
  uploadLoop outcome 0 3

/-- A concrete upload-outcome function where every attempt fails with
error 42; used to witness the retry theorem. -/
def alwaysFailOutcome : Nat → Option Nat :=
  fun _ => some 42

/-- A concrete manifest with a missing "refs" key; used to witness the
neurodata-types theorem. -/
def zarrJsonNoRefs : ZarrJson :=
  ⟨none, none⟩

/-- The content-type inference of _upload_file_to_s3 (dandi_lindi.py lines
281-299, dandi_kerchunk.py lines 183-201, and identically in the index
scripts): an if/elif chain of fname.endswith tests; None when no suffix
matches. -/
def contentTypeForFilename (fname : String) : Option String :=
  if endsWith fname ".html" then some "text/html"
  else if endsWith fname ".js" then some "application/javascript"
  else if endsWith fname ".css" then some "text/css"
  else if endsWith fname ".png" then some "image/png"
  else if endsWith fname ".jpg" then some "image/jpeg"
  else if endsWith fname ".svg" then some "image/svg+xml"
  else if endsWith fname ".json" then some "application/json"
  else if endsWith fname ".gz" then some "application/gzip"
  else none

/-- The asset dict built by handle_dandiset (dandi_lindi.py lines 107-113)
and passed to process_asset. -/
structure Asset where
  identifier : String
  path : String
  size : Nat
  download_url : String
  dandiset_id : String
deriving DecidableEq

/-- The info.json document downloaded by the skip check of process_asset:
only info.get("generationMetadata", \x7b\x7d) is inspected. -/
structure InfoDoc where
  generationMetadata : Option GenMetaPartial
deriving DecidableEq

/-- The generation_metadata record built by process_asset (dandi_lindi.py
lines 182-193), with the timestamp, duration string and captured console
output abstracted as opaque strings supplied by the environment. -/
structure GenerationMetadata where
  generatedBy : String
  generatedByVersion : Int
  dandisetId : String
  assetId : String
  assetPath : String
  assetDownloadUrl : String
  assetSize : Nat
  generationTimestamp : String
  generationDuration : String
  console_output : String
deriving DecidableEq

/-- The nwb.lindi.json manifest written by process_asset: the reference
file system produced by _create_lindi_json (its refs map abstracted like
ZarrJson's) with the generationMetadata key set afterwards. -/
structure LindiManifest where
  refs : List (String × Zattrs)
  generationMetadata : Option GenerationMetadata
deriving DecidableEq

/-- The remote and local environment observed by one process_asset call:
the three HEAD results, the info.json content at info_url, whether the
per-asset file lock can be acquired within its timeout, the reference file
system the lindi library produces for the asset, and the strings the
environment supplies for the metadata record. -/
structure World where
  lindi_exists : Bool
  info_exists : Bool
  old_zarr_exists : Bool
  info : InfoDoc
  lock_available : Bool
  rfs : List (String × Zattrs)
  timestamp : String
  duration : String
  console : String
deriving DecidableEq

/-- The state-changing actions process_asset can perform, in order:
s3.copy_object, s3.delete_object, the manifest generation
(_create_lindi_json), and the two uploads. -/
inductive S3Effect where
  | copyObject (bucket srcKey dstKey : String)
  | deleteObject (bucket key : String)
  | generateManifest (url : String)
  | uploadManifest (bucket key : String) (content : LindiManifest)
  | uploadInfo (bucket key : String) (generationMetadata : GenerationMetadata)
deriving DecidableEq

/-- file_key of process_asset (dandi_lindi.py line 139). -/
def fileKey (a : Asset) : String :=
  "dandi/dandisets/" ++ a.dandiset_id ++ "/assets/" ++ a.identifier ++ "/nwb.lindi.json"

/-- old_zarr_json_file_key of process_asset (dandi_lindi.py line 140). -/
def oldZarrKey (a : Asset) : String :=
  "dandi/dandisets/" ++ a.dandiset_id ++ "/assets/" ++ a.identifier ++ "/zarr.json"

/-- info_file_key of process_asset (dandi_lindi.py line 141). -/
def infoKey (a : Asset) : String :=
  "dandi/dandisets/" ++ a.dandiset_id ++ "/assets/" ++ a.identifier ++ "/info.json"

/-- The generation_metadata dict of dandi_lindi.process_asset lines
182-193, field by field. -/
def mkGenerationMetadata (w : World) (a : Asset) : GenerationMetadata :=
  ⟨"dandi_lindi", 11, a.dandiset_id, a.identifier, a.path, a.download_url,
    a.size, w.timestamp, w.duration, w.console⟩

/-- The processing body of process_asset after the skip checks
(dandi_lindi.py lines 168-223): acquire the lock (returning with no
effects when acquire_lock yields None), generate the manifest, stamp it
with the metadata, build info.json from the same metadata, and upload
both. -/
def processBody (w : World) (a : Asset) : List S3Effect :=
  if !w.lock_available then []
  else
    [ .generateManifest a.download_url,
      .uploadManifest "neurosift-lindi" (fileKey a) ⟨w.rfs, some (mkGenerationMetadata w a)⟩,
      .uploadInfo "neurosift-lindi" (infoKey a) (mkGenerationMetadata w a) ]

/-- process_asset (dandi_lindi.py lines 129-223) as the list of
state-changing actions it performs.  The module-level force flag is a
parameter; the source sets it to False.  When not force: if both
nwb.lindi.json and info.json exist, download info.json and return with no
actions when its generationMetadata says generatedBy "dandi_lindi" at
version 11, otherwise reprocess; else if the old zarr.json exists, copy it
to the new key and delete it; otherwise reprocess. -/
def process_asset (force : Bool) (w : World) (a : Asset) : List S3Effect :=
  if !force then
    if w.lindi_exists && w.info_exists then
      let gm := w.info.generationMetadata.getD GenMetaPartial.empty
      if gm.generatedBy = some "dandi_lindi" ∧ gm.generatedByVersion = some 11 then
        []
      else
        processBody w a
    else if w.old_zarr_exists then
      [ .copyObject "neurosift-lindi" (oldZarrKey a) (fileKey a),
        .deleteObject "neurosift-lindi" (oldZarrKey a) ]
    else
      processBody w a
  else
    processBody w a

/-- A concrete world whose artifacts are both present with current
metadata; used to witness the skip theorem. -/
def worldCurrent : World :=
  ⟨true, true, false, ⟨some ⟨some "dandi_lindi", some 11⟩⟩, true, [], "t", "d", "c"⟩

/-- A concrete world with no remote artifacts and a free lock; used to
witness the metadata theorem. -/
def worldFresh : World :=
  ⟨false, false, false, ⟨none⟩, true, [], "t", "d", "c"⟩

/-- A concrete asset; used by the witnesses. -/
def assetA : Asset :=
  ⟨"a1", "sub-01/sub-01.nwb", 5, "https://u", "000003"⟩

/-- An asset as seen by the global-index aggregator (identifier and path
are the only fields it reads). -/
structure GIAsset where
  identifier : String
  path : String
deriving DecidableEq

/-- The remote state of one asset's zarr.json URL for the global-index
aggregator: whether the file exists (HEAD 200 versus 404, and likewise for
GET), and its JSON content when it does. -/
structure RemoteDoc where
  found : Bool
  doc : ZarrJson
deriving DecidableEq

/-- One entry of the files list built by create_global_index.handle_dandiset
(lines 109-117). -/
structure GIEntry where
  dandiset_id : String
  dandiset_version : String
  asset_id : String
  asset_path : String
  zarr_json_url : String
  neurodata_types : List String
deriving DecidableEq

/-- _download_json (create_global_index.py lines 202-217) against a fixed
remote state: when the URL exists the GET returns its JSON; when it does
not, every attempt raises HTTPError 404, so after the three retries the
loop re-raises the 404. -/
def gi_download (r : RemoteDoc) : Except Nat ZarrJson :=
  if r.found then .ok r.doc else .error 404

/-- zarr_json_url of create_global_index.handle_dandiset line 97-98. -/
def giUrl (dandiset_id : String) (a : GIAsset) : String :=
  "https://lindi.neurosift.org/dandi/dandisets/" ++ dandiset_id ++ "/assets/"
    ++ a.identifier ++ "/zarr.json"

/-- The asset loop of create_global_index.handle_dandiset (lines 78-118),
iterating over the assets paired with the remote state of their zarr.json
URLs, carrying num_consecutive_not_nwb and num_consecutive_not_found and
the accumulated files list.  Faithful to the source order: the non-NWB
check, the not-found break, then `zarr_json = _download_json(zarr_json_url)`
BEFORE `if not _remote_file_exists(zarr_json_url)`, then the version
check, then the files.append. -/
def gi_loop (dandiset_id dandiset_version : String) :
    List (GIAsset × RemoteDoc) → Nat → Nat → List GIEntry → Except Nat (List GIEntry)
  | [], _, _, acc => .ok acc.reverse
  | (a, r) :: rest, kNwb, kNf, acc =>
    if !(isNwb a.path) then
      if kNwb + 1 ≥ 20 then .ok acc.reverse
      else gi_loop dandiset_id dandiset_version rest (kNwb + 1) kNf acc
    else if kNf ≥ 20 then .ok acc.reverse
    else
      match gi_download r with
      | .error e => .error e
      | .ok doc =>
        if !r.found then
          gi_loop dandiset_id dandiset_version rest 0 (kNf + 1) acc
        else if (doc.generationMetadata.getD GenMetaPartial.empty).generatedByVersion ≠ some 9 then
          gi_loop dandiset_id dandiset_version rest 0 (kNf + 1) acc
        else
          gi_loop dandiset_id dandiset_version rest 0 kNf
            (⟨dandiset_id, dandiset_version, a.identifier, a.path,
              giUrl dandiset_id a, _get_neurodata_types_for_zarr_json doc⟩ :: acc)

/-- create_global_index.handle_dandiset (lines 64-118) restricted to its
asset loop, entered with both counters at zero and an empty files list. -/
def handle_dandiset_gi (dandiset_id dandiset_version : String)
    (assets : List (GIAsset × RemoteDoc)) : Except Nat (List GIEntry) :=
  gi_loop dandiset_id dandiset_version assets 0 0 []

/-- A Python value as far as NWBTyped.file_create_date inspects it: a
datetime (payload abstracted to Int), a list, a tuple, a numpy ndarray, or
anything else. -/
inductive PyVal where
  | datetime (t : Int)
  | pylist (xs : List PyVal)
  | pytuple (xs : List PyVal)
  | ndarray (xs : List PyVal)
  | other

/-- The exceptions the accessor can raise. -/
inductive PyErr where
  | assertionError
  | typeError
deriving DecidableEq

/-- NWBTyped.file_create_date (NWBTyped.py lines 50-70) on an nwb object
whose file_create_date attribute is v, with a fuel bound on the Python
call stack: none models nonterminating recursion (a RecursionError once
the interpreter's stack limit is hit).  The first two branches test the
attribute; the third branch tests `isinstance(self.file_create_date,
np.ndarray)`, i.e. it re-enters the property itself rather than reading
the attribute, so for any value not handled by the first two branches the
property calls itself on the same value. -/
def file_create_date_accessor : Nat → PyVal → Option (Except PyErr Int)
  | 0, _ => none
  | _ + 1, .datetime t => some (.ok t)
  | _ + 1, .pylist xs =>
    match xs with
    | [.datetime t] => some (.ok t)
    | _ => some (.error .assertionError)
  | _ + 1, .pytuple xs =>
    match xs with
    | [.datetime t] => some (.ok t)
    | _ => some (.error .assertionError)
  | fuel + 1, v =>
    match file_create_date_accessor fuel v with
    | none => none
    | some (.error e) => some (.error e)
    | some (.ok _) => some (.error .typeError)

/-- The per-dandiset asset scan shared by dandi_lindi.handle_dandiset
(lines 89-103), create_global_index.handle_dandiset (lines 78-91) and
create_neurodata_types_index.handle_dandiset (lines 110-124), projected to
the asset paths it consumes: the consecutive-non-NWB counter increments at
each path not ending in ".nwb", the loop returns (or breaks) when it
reaches 20, and the counter resets to zero at each ".nwb" path.  The
result is the list of assets the loop examines before stopping (the other
stop conditions of the scripts, such as time limits, are not triggered). -/
def crawlAssets : List String → Nat → List String
  | [], _ => []
  | p :: rest, k =>
    if isNwb p then p :: crawlAssets rest 0
    else if k + 1 ≥ 20 then [p]
    else p :: crawlAssets rest (k + 1)

/-- The consecutive-non-NWB counter after scanning a list of paths from an
initial value, stated directly from the claim: it increments at every
non-NWB path and resets to zero at every NWB path. -/
def consecNotNwb (k : Nat) (c : List String) : Nat :=
  c.foldl (fun acc p => if isNwb p then 0 else acc + 1) k

/-- A concrete asset list with 20 leading non-NWB paths; used to witness
the crawl theorem. -/
def crawlWitnessList : List String :=
  List.replicate 20 "a.txt" ++ ["b.nwb"]

/-- Two candidate suffixes of the same string are comparable, so two
mutually non-suffix strings can never both be suffixes of one filename. -/
theorem endsWith_disjoint {f a b : String}
    (hab : a.data.isSuffixOf b.data = false) (hba : b.data.isSuffixOf a.data = false)
    (h : endsWith f a = true) : endsWith f b = false := by
  cases hfb : endsWith f b
  · rfl
  · exfalso
    unfold endsWith at h hfb
    rw [List.isSuffixOf_iff_suffix] at h hfb
    rcases List.suffix_or_suffix_of_suffix h hfb with hc | hc
    · rw [← List.isSuffixOf_iff_suffix, hab] at hc
      exact Bool.false_ne_true hc
    · rw [← List.isSuffixOf_iff_suffix, hba] at hc
      exact Bool.false_ne_true hc

/-- C3: for every manifest, _get_neurodata_types_for_zarr_json returns a
duplicate-free list, sorted in the lexicographic order on strings, whose
members are exactly the truthy neurodata_type values of the entries of the
refs map whose key ends with ".zattrs"; and for a manifest with no "refs"
key it returns the empty list. -/
theorem get_neurodata_types_spec (z : ZarrJson) :
    (_get_neurodata_types_for_zarr_json z).Nodup ∧
    List.Sorted (· ≤ ·) (_get_neurodata_types_for_zarr_json z) ∧
    (∀ s, s ∈ _get_neurodata_types_for_zarr_json z ↔ s ∈ collectNeurodataTypes z) ∧
    (z.refs = none → _get_neurodata_types_for_zarr_json z = []) := by
  refine ⟨?_, ?_, ?_, ?_⟩
  · rw [_get_neurodata_types_for_zarr_json]
    exact (List.perm_insertionSort _ _).nodup_iff.mpr (List.nodup_dedup _)
  · exact List.sorted_insertionSort _ _
  · intro s
    rw [_get_neurodata_types_for_zarr_json, List.mem_insertionSort, List.mem_dedup]
  · intro h
    simp [_get_neurodata_types_for_zarr_json, collectNeurodataTypes, h]

/-- Witness: a manifest with no "refs" key yields the empty list. -/
theorem get_neurodata_types_spec_witness :
    _get_neurodata_types_for_zarr_json zarrJsonNoRefs = [] :=
  (get_neurodata_types_spec zarrJsonNoRefs).2.2.2 rfl

/-- C4 counterexample: a HEAD request that succeeds with status 204 makes
_remote_file_exists return False although the request did not fail with
HTTP error 404, so "returns False exactly when the request fails with
HTTP error code 404" is false as stated. -/
theorem remote_file_exists_false_on_success_204 :
    _remote_file_exists (.success 204) = .ok false ∧
    HeadOutcome.success 204 ≠ HeadOutcome.httpError 404 :=
  ⟨rfl, fun h => HeadOutcome.noConfusion h⟩

/-- C4 (amended): _remote_file_exists returns True exactly on a response
with status 200, returns False exactly when the request fails with HTTP
error 404 or a response has a non-200 status, and re-raises exactly the
HTTP errors whose code is not 404. -/
theorem remote_file_exists_characterization (o : HeadOutcome) :
    (_remote_file_exists o = .ok true ↔ o = .success 200) ∧
    (_remote_file_exists o = .ok false ↔
      (o = .httpError 404 ∨ ∃ c, c ≠ 200 ∧ o = .success c)) ∧
    (∀ c, _remote_file_exists o = .error c ↔ o = .httpError c ∧ c ≠ 404) := by
  cases o with
  | success code =>
    refine ⟨?_, ?_, ?_⟩
    · simp [_remote_file_exists]
    · simp only [_remote_file_exists, Except.ok.injEq]
      constructor
      · intro h
        exact Or.inr ⟨code, by simpa using h, rfl⟩
      · rintro (h | ⟨c, hc, h⟩)
        · exact HeadOutcome.noConfusion h
        · cases h
          simpa using hc
    · intro c
      simp [_remote_file_exists]
  | httpError code =>
    by_cases h404 : code = 404
    · subst h404
      refine ⟨?_, ?_, ?_⟩
      · simp [_remote_file_exists]
      · simp [_remote_file_exists]
      · intro c
        simp only [_remote_file_exists, if_pos rfl]
        constructor
        · intro h
          exact Except.noConfusion h
        · rintro ⟨h, hc⟩
          cases h
          exact absurd rfl hc
    · have hb : ¬((code == 404) = true) := by simpa using h404
      refine ⟨?_, ?_, ?_⟩
      · simp [_remote_file_exists, h404]
      · simp [_remote_file_exists, h404]
      · intro c
        simp only [_remote_file_exists]
        rw [if_neg hb]
        simp only [Except.error.injEq, HeadOutcome.httpError.injEq]
        constructor
        · rintro rfl
          exact ⟨rfl, h404⟩
        · rintro ⟨rfl, _⟩
          rfl

/-- C5: the retry loop of _upload_file_to_s3 makes at most 3 upload
attempts, returns as soon as one attempt succeeds (having failed on every
earlier attempt), and raises the error of the third attempt after three
consecutive failures; being a total function of the attempt outcomes, it
always terminates. -/
theorem upload_retry_bounded {ε : Type} (outcome : Nat → Option ε) :
    (∀ n, _upload_file_to_s3 outcome = .ok n →
      1 ≤ n ∧ n ≤ 3 ∧ outcome (n - 1) = none ∧ ∀ i, i < n - 1 → outcome i ≠ none) ∧
    (∀ e, _upload_file_to_s3 outcome = .error e →
      outcome 0 ≠ none ∧ outcome 1 ≠ none ∧ outcome 2 = some e) := by
  rcases h0 : outcome 0 with _ | e0
  · have key : _upload_file_to_s3 outcome = .ok 1 := by
      simp [_upload_file_to_s3, uploadLoop, h0]
    constructor
    · intro n hn
      rw [key] at hn
      injection hn with hn
      subst hn
      exact ⟨le_refl 1, by omega, h0, fun i hi => absurd hi (by omega)⟩
    · intro e he
      rw [key] at he
      exact Except.noConfusion he
  · rcases h1 : outcome 1 with _ | e1
    · have key : _upload_file_to_s3 outcome = .ok 2 := by
        simp [_upload_file_to_s3, uploadLoop, h0, h1]
      constructor
      · intro n hn
        rw [key] at hn
        injection hn with hn
        subst hn
        refine ⟨by omega, by omega, h1, ?_⟩
        intro i hi
        have hz : i = 0 := by omega
        subst hz
        simp [h0]
      · intro e he
        rw [key] at he
        exact Except.noConfusion he
    · rcases h2 : outcome 2 with _ | e2
      · have key : _upload_file_to_s3 outcome = .ok 3 := by
          simp [_upload_file_to_s3, uploadLoop, h0, h1, h2]
        constructor
        · intro n hn
          rw [key] at hn
          injection hn with hn
          subst hn
          refine ⟨by omega, by omega, h2, ?_⟩
          intro i hi
          interval_cases i
          · simp [h0]
          · simp [h1]
        · intro e he
          rw [key] at he
          exact Except.noConfusion he
      · have key : _upload_file_to_s3 outcome = .error e2 := by
          simp [_upload_file_to_s3, uploadLoop, h0, h1, h2]
        constructor
        · intro n hn
          rw [key] at hn
          exact Except.noConfusion hn
        · intro e he
          rw [key] at he
          injection he with he
          subst he
          exact ⟨by simp, by simp, rfl⟩

/-- Witness: with every attempt failing with error 42, the loop fails three
attempts and raises 42. -/
theorem upload_retry_bounded_witness :
    alwaysFailOutcome 0 ≠ none ∧ alwaysFailOutcome 1 ≠ none ∧ alwaysFailOutcome 2 = some 42 :=
  (upload_retry_bounded alwaysFailOutcome).2 42 rfl

/-- C9: the content type set by _upload_file_to_s3 is decided solely by
the filename suffix (each endswith match forces the answer regardless of
the chain order, because no filename ends with two of the eight suffixes
at once), per the eight-entry table, and no content type is set for any
other suffix. -/
theorem content_type_table (fname : String) :
    (endsWith fname ".html" = true → contentTypeForFilename fname = some "text/html") ∧
    (endsWith fname ".js" = true → contentTypeForFilename fname = some "application/javascript") ∧
    (endsWith fname ".css" = true → contentTypeForFilename fname = some "text/css") ∧
    (endsWith fname ".png" = true → contentTypeForFilename fname = some "image/png") ∧
    (endsWith fname ".jpg" = true → contentTypeForFilename fname = some "image/jpeg") ∧
    (endsWith fname ".svg" = true → contentTypeForFilename fname = some "image/svg+xml") ∧
    (endsWith fname ".json" = true → contentTypeForFilename fname = some "application/json") ∧
    (endsWith fname ".gz" = true → contentTypeForFilename fname = some "application/gzip") ∧
    ((endsWith fname ".html" = false ∧ endsWith fname ".js" = false ∧
      endsWith fname ".css" = false ∧ endsWith fname ".png" = false ∧
      endsWith fname ".jpg" = false ∧ endsWith fname ".svg" = false ∧
      endsWith fname ".json" = false ∧ endsWith fname ".gz" = false) →
      contentTypeForFilename fname = none) := by
  refine ⟨?_, ?_, ?_, ?_, ?_, ?_, ?_, ?_, ?_⟩
  · intro h
    simp [contentTypeForFilename, h]
  · intro h
    have d1 : endsWith fname ".html" = false := endsWith_disjoint (by decide) (by decide) h
    simp [contentTypeForFilename, h, d1]
  · intro h
    have d1 : endsWith fname ".html" = false := endsWith_disjoint (by decide) (by decide) h
    have d2 : endsWith fname ".js" = false := endsWith_disjoint (by decide) (by decide) h
    simp [contentTypeForFilename, h, d1, d2]
  · intro h
    have d1 : endsWith fname ".html" = false := endsWith_disjoint (by decide) (by decide) h
    have d2 : endsWith fname ".js" = false := endsWith_disjoint (by decide) (by decide) h
    have d3 : endsWith fname ".css" = false := endsWith_disjoint (by decide) (by decide) h
    simp [contentTypeForFilename, h, d1, d2, d3]
  · intro h
    have d1 : endsWith fname ".html" = false := endsWith_disjoint (by decide) (by decide) h
    have d2 : endsWith fname ".js" = false := endsWith_disjoint (by decide) (by decide) h
    have d3 : endsWith fname ".css" = false := endsWith_disjoint (by decide) (by decide) h
    have d4 : endsWith fname ".png" = false := endsWith_disjoint (by decide) (by decide) h
    simp [contentTypeForFilename, h, d1, d2, d3, d4]
  · intro h
    have d1 : endsWith fname ".html" = false := endsWith_disjoint (by decide) (by decide) h
    have d2 : endsWith fname ".js" = false := endsWith_disjoint (by decide) (by decide) h
    have d3 : endsWith fname ".css" = false := endsWith_disjoint (by decide) (by decide) h
    have d4 : endsWith fname ".png" = false := endsWith_disjoint (by decide) (by decide) h
    have d5 : endsWith fname ".jpg" = false := endsWith_disjoint (by decide) (by decide) h
    simp [contentTypeForFilename, h, d1, d2, d3, d4, d5]
  · intro h
    have d1 : endsWith fname ".html" = false := endsWith_disjoint (by decide) (by decide) h
    have d2 : endsWith fname ".js" = false := endsWith_disjoint (by decide) (by decide) h
    have d3 : endsWith fname ".css" = false := endsWith_disjoint (by decide) (by decide) h
    have d4 : endsWith fname ".png" = false := endsWith_disjoint (by decide) (by decide) h
    have d5 : endsWith fname ".jpg" = false := endsWith_disjoint (by decide) (by decide) h
    have d6 : endsWith fname ".svg" = false := endsWith_disjoint (by decide) (by decide) h
    simp [contentTypeForFilename, h, d1, d2, d3, d4, d5, d6]
  · intro h
    have d1 : endsWith fname ".html" = false := endsWith_disjoint (by decide) (by decide) h
    have d2 : endsWith fname ".js" = false := endsWith_disjoint (by decide) (by decide) h
    have d3 : endsWith fname ".css" = false := endsWith_disjoint (by decide) (by decide) h
    have d4 : endsWith fname ".png" = false := endsWith_disjoint (by decide) (by decide) h
    have d5 : endsWith fname ".jpg" = false := endsWith_disjoint (by decide) (by decide) h
    have d6 : endsWith fname ".svg" = false := endsWith_disjoint (by decide) (by decide) h
    have d7 : endsWith fname ".json" = false := endsWith_disjoint (by decide) (by decide) h
    simp [contentTypeForFilename, h, d1, d2, d3, d4, d5, d6, d7]
  · rintro ⟨d1, d2, d3, d4, d5, d6, d7, d8⟩
    simp [contentTypeForFilename, d1, d2, d3, d4, d5, d6, d7, d8]

/-- Witness: an .html filename gets content type text/html. -/
theorem content_type_table_witness :
    contentTypeForFilename "a.html" = some "text/html" :=
  (content_type_table "a.html").1 (by decide)

/-- C1: with the force flag false (its value in the source), when both
nwb.lindi.json and info.json already exist at their HTTPS URLs and the
downloaded info.json's generationMetadata has generatedBy "dandi_lindi"
and generatedByVersion 11, process_asset returns performing no actions:
no copy, no delete, no manifest generation and no upload. -/
theorem process_asset_skips_when_current (w : World) (a : Asset)
    (h1 : w.lindi_exists = true) (h2 : w.info_exists = true)
    (h3 : (w.info.generationMetadata.getD GenMetaPartial.empty).generatedBy
      = some "dandi_lindi")
    (h4 : (w.info.generationMetadata.getD GenMetaPartial.empty).generatedByVersion
      = some 11) :
    process_asset false w a = [] := by
  simp [process_asset, h1, h2, h3, h4]

/-- Witness: a world with both artifacts current makes process_asset a
no-op. -/
theorem process_asset_skips_when_current_witness :
    process_asset false worldCurrent assetA = [] :=
  process_asset_skips_when_current worldCurrent assetA rfl rfl rfl rfl

/-- Any uploadManifest action of process_asset comes from the processing
body: the lock was available and the uploaded manifest is the generated
reference file system stamped with the metadata record. -/
theorem mem_process_asset_uploadManifest {force : Bool} {w : World} {a : Asset}
    {b k : String} {m : LindiManifest}
    (h : S3Effect.uploadManifest b k m ∈ process_asset force w a) :
    b = "neurosift-lindi" ∧ k = fileKey a ∧
      m = ⟨w.rfs, some (mkGenerationMetadata w a)⟩ := by
  have hbody : S3Effect.uploadManifest b k m ∈ processBody w a := by
    unfold process_asset at h
    split_ifs at h <;> simp_all
  unfold processBody at hbody
  split_ifs at hbody with hl
  · simp at hbody
  · simp at hbody
    exact hbody

/-- Any uploadInfo action of process_asset uploads exactly the metadata
record built for the asset. -/
theorem mem_process_asset_uploadInfo {force : Bool} {w : World} {a : Asset}
    {b k : String} {g : GenerationMetadata}
    (h : S3Effect.uploadInfo b k g ∈ process_asset force w a) :
    g = mkGenerationMetadata w a := by
  have hbody : S3Effect.uploadInfo b k g ∈ processBody w a := by
    unfold process_asset at h
    split_ifs at h <;> simp_all
  unfold processBody at hbody
  split_ifs at hbody with hl
  · simp at hbody
  · simp at hbody
    exact hbody.2.2

/-- C2: every manifest uploaded by process_asset embeds a
generationMetadata record with generatedBy "dandi_lindi", version 11, the
source asset's dandiset id, asset id, path, download URL and size, the
generation timestamp, the generation duration and the captured console
output; and every info.json uploaded by the same call carries exactly the
same record. -/
theorem uploaded_manifest_metadata (force : Bool) (w : World) (a : Asset)
    (b k : String) (m : LindiManifest)
    (h : S3Effect.uploadManifest b k m ∈ process_asset force w a) :
    ∃ gm, m.generationMetadata = some gm ∧
      gm.generatedBy = "dandi_lindi" ∧ gm.generatedByVersion = 11 ∧
      gm.dandisetId = a.dandiset_id ∧ gm.assetId = a.identifier ∧
      gm.assetPath = a.path ∧ gm.assetDownloadUrl = a.download_url ∧
      gm.assetSize = a.size ∧ gm.generationTimestamp = w.timestamp ∧
      gm.generationDuration = w.duration ∧ gm.console_output = w.console ∧
      ∀ b2 k2 g2, S3Effect.uploadInfo b2 k2 g2 ∈ process_asset force w a →
        g2 = gm := by
  obtain ⟨-, -, hm⟩ := mem_process_asset_uploadManifest h
  subst hm
  refine ⟨mkGenerationMetadata w a, rfl, rfl, rfl, rfl, rfl, rfl, rfl, rfl, rfl,
    rfl, rfl, ?_⟩
  intro b2 k2 g2 h2
  exact mem_process_asset_uploadInfo h2

/-- Witness: in a fresh world the manifest upload of process_asset carries
the stamped metadata record. -/
theorem uploaded_manifest_metadata_witness :
    ∃ gm, (LindiManifest.mk [] (some (mkGenerationMetadata worldFresh assetA))).generationMetadata
      = some gm ∧ gm.generatedBy = "dandi_lindi" :=
  match uploaded_manifest_metadata false worldFresh assetA "neurosift-lindi"
      (fileKey assetA)
      ⟨[], some (mkGenerationMetadata worldFresh assetA)⟩
      (by simp [process_asset, processBody, worldFresh]) with
  | ⟨gm, hsome, hby, _⟩ => ⟨gm, hsome, hby⟩

/-- C6: evaluating create_global_index.handle_dandiset at a dandiset whose
single NWB asset has no per-asset manifest (HEAD on its zarr.json URL
yields 404, and so does every GET): the loop calls _download_json before
the HEAD-based existence check, the download re-raises the 404 after its
retries, and the aggregation raises instead of incrementing the
consecutive-not-found counter and skipping the asset. -/
theorem gi_missing_manifest_raises :
    handle_dandiset_gi "000003" "draft"
      [(⟨"a1", "sub-01/sub-01.nwb"⟩, ⟨false, zarrJsonNoRefs⟩)] = .error 404 := by
  rfl

/-- C7: on an nwb object whose file_create_date attribute is a one-element
numpy array containing a datetime, the accessor never returns for any
stack bound: branch three tests the property itself instead of the
attribute, so the property re-enters itself forever instead of returning
the datetime. -/
theorem file_create_date_ndarray_diverges (fuel : Nat) (t : Int) :
    file_create_date_accessor fuel (.ndarray [.datetime t]) = none := by
  induction fuel with
  | zero => rfl
  | succ n ih =>
    rw [file_create_date_accessor, ih] <;> intro _ h <;> exact PyVal.noConfusion h

/-- One step of the consecutive-non-NWB counter. -/
theorem consecNotNwb_cons (k : Nat) (p : String) (c : List String) :
    consecNotNwb k (p :: c) = consecNotNwb (if isNwb p then 0 else k + 1) c := rfl

/-- The counter never exceeds its start value plus the number of scanned
paths. -/
theorem consecNotNwb_le (c : List String) : ∀ k, consecNotNwb k c ≤ k + c.length := by
  induction c with
  | nil => intro k; simp [consecNotNwb]
  | cons p rest ih =>
    intro k
    rw [consecNotNwb_cons]
    cases hp : isNwb p
    · rw [if_neg (by simp [hp])]
      have := ih (k + 1)
      simp only [List.length_cons]
      omega
    · rw [if_pos rfl]
      have := ih 0
      simp only [List.length_cons]
      omega

/-- The counter value counts a run of non-NWB paths at the end of the
scanned list: the last consecNotNwb paths are all non-NWB. -/
theorem consecNotNwb_tail_not_nwb (c : List String) :
    ∀ k, ∀ p ∈ c.drop (c.length - consecNotNwb k c), isNwb p = false := by
  induction c with
  | nil => intro k p hp; simp at hp
  | cons q rest ih =>
    intro k p hp
    rw [consecNotNwb_cons] at hp
    cases hq : isNwb q
    · rw [if_neg (by simp [hq])] at hp
      by_cases hle : consecNotNwb (k + 1) rest ≤ rest.length
      · have harith : (q :: rest).length - consecNotNwb (k + 1) rest
            = (rest.length - consecNotNwb (k + 1) rest) + 1 := by
          simp only [List.length_cons]
          omega
        rw [harith, List.drop_succ_cons] at hp
        exact ih (k + 1) p hp
      · have harith : (q :: rest).length - consecNotNwb (k + 1) rest = 0 := by
          simp only [List.length_cons]
          omega
        rw [harith, List.drop_zero] at hp
        rcases List.mem_cons.mp hp with rfl | hp2
        · exact hq
        · have hz : rest.length - consecNotNwb (k + 1) rest = 0 := by omega
          have := ih (k + 1) p
          rw [hz, List.drop_zero] at this
          exact this hp2
    · rw [if_pos hq] at hp
      have hle := consecNotNwb_le rest 0
      have harith : (q :: rest).length - consecNotNwb 0 rest
          = (rest.length - consecNotNwb 0 rest) + 1 := by
        simp only [List.length_cons]
        omega
      rw [harith, List.drop_succ_cons] at hp
      exact ih 0 p hp

/-- The asset-scan characterization, generalized over the counter's start
value: the consumed trace is a prefix of the asset list; if the scan
stopped early the counter stands exactly at 20 at the stopping point; and
at every earlier point of the scan the counter is below 20. -/
theorem crawlAssets_spec (l : List String) : ∀ k, k < 20 →
    crawlAssets l k <+: l ∧
    (crawlAssets l k ≠ l → consecNotNwb k (crawlAssets l k) = 20) ∧
    (∀ c, c <+: crawlAssets l k → c ≠ crawlAssets l k → consecNotNwb k c < 20) := by
  induction l with
  | nil =>
    intro k hk
    refine ⟨⟨[], rfl⟩, fun h => absurd rfl h, ?_⟩
    intro c hc hne
    rcases hc with ⟨t, ht⟩
    exact absurd (List.append_eq_nil.mp ht).1 hne
  | cons p rest ih =>
    intro k hk
    cases hp : isNwb p
    · by_cases h20 : k + 1 ≥ 20
      · have hc : crawlAssets (p :: rest) k = [p] := by
          simp [crawlAssets, hp, h20]
        refine ⟨?_, ?_, ?_⟩
        · rw [hc]
          exact List.cons_prefix_cons.mpr ⟨rfl, ⟨rest, rfl⟩⟩
        · intro _
          rw [hc, consecNotNwb_cons, if_neg (by simp [hp])]
          simp only [consecNotNwb, List.foldl_nil]
          omega
        · intro c hcp hne
          rw [hc] at hcp hne
          cases c with
          | nil => simpa [consecNotNwb] using hk
          | cons q c2 =>
            rcases List.cons_prefix_cons.mp hcp with ⟨rfl, h2⟩
            rcases h2 with ⟨t, ht⟩
            have hz : c2 = [] := (List.append_eq_nil.mp ht).1
            subst hz
            exact absurd rfl hne
      · have hc : crawlAssets (p :: rest) k = p :: crawlAssets rest (k + 1) := by
          simp [crawlAssets, hp, h20]
        obtain ⟨ih1, ih2, ih3⟩ := ih (k + 1) (by omega)
        refine ⟨?_, ?_, ?_⟩
        · rw [hc]
          exact List.cons_prefix_cons.mpr ⟨rfl, ih1⟩
        · rw [hc]
          intro hne
          have hne2 : crawlAssets rest (k + 1) ≠ rest := fun he => hne (by rw [he])
          rw [consecNotNwb_cons, if_neg (by simp [hp])]
          exact ih2 hne2
        · rw [hc]
          intro c hcp hne
          cases c with
          | nil => simpa [consecNotNwb] using hk
          | cons q c2 =>
            rcases List.cons_prefix_cons.mp hcp with ⟨rfl, h2⟩
            have hne2 : c2 ≠ crawlAssets rest (k + 1) := fun he => hne (by rw [he])
            rw [consecNotNwb_cons, if_neg (by simp [hp])]
            exact ih3 c2 h2 hne2
    · have hc : crawlAssets (p :: rest) k = p :: crawlAssets rest 0 := by
        simp [crawlAssets, hp]
      obtain ⟨ih1, ih2, ih3⟩ := ih 0 (by omega)
      refine ⟨?_, ?_, ?_⟩
      · rw [hc]
        exact List.cons_prefix_cons.mpr ⟨rfl, ih1⟩
      · rw [hc]
        intro hne
        have hne2 : crawlAssets rest 0 ≠ rest := fun he => hne (by rw [he])
        rw [consecNotNwb_cons, if_pos (by simp [hp])]
        exact ih2 hne2
      · rw [hc]
        intro c hcp hne
        cases c with
        | nil => simpa [consecNotNwb] using hk
        | cons q c2 =>
          rcases List.cons_prefix_cons.mp hcp with ⟨rfl, h2⟩
          have hne2 : c2 ≠ crawlAssets rest 0 := fun he => hne (by rw [he])
          rw [consecNotNwb_cons, if_pos (by simp [hp])]
          exact ih3 c2 h2 hne2

/-- C10: the per-dandiset scan consumes a prefix of the asset list; when it
stops before the end, the consecutive-non-NWB counter (which resets to
zero at every ".nwb" path) stands exactly at 20 and the 20 paths just
seen are all non-NWB; and at every earlier point of the scan the counter
was below 20 — so the loop stops exactly as soon as 20 consecutive
non-NWB assets have been seen. -/
theorem crawl_stops_at_twenty (l : List String) :
    crawlAssets l 0 <+: l ∧
    (crawlAssets l 0 ≠ l →
      consecNotNwb 0 (crawlAssets l 0) = 20 ∧
      ∀ p ∈ (crawlAssets l 0).drop ((crawlAssets l 0).length - 20), isNwb p = false) ∧
    (∀ c, c <+: crawlAssets l 0 → c ≠ crawlAssets l 0 → consecNotNwb 0 c < 20) := by
  obtain ⟨h1, h2, h3⟩ := crawlAssets_spec l 0 (by omega)
  refine ⟨h1, ?_, h3⟩
  intro hne
  have h20 := h2 hne
  refine ⟨h20, ?_⟩
  intro p hp
  have h4 := consecNotNwb_tail_not_nwb (crawlAssets l 0) 0
  rw [h20] at h4
  exact h4 p hp

/-- Witness: scanning 20 non-NWB paths followed by an NWB one stops after
the 20 non-NWB paths with the counter at 20, and a 19-path prefix of the
scan keeps the counter below 20. -/
theorem crawl_stops_at_twenty_witness :
    consecNotNwb 0 (crawlAssets crawlWitnessList 0) = 20 ∧
    consecNotNwb 0 (List.replicate 19 "a.txt") < 20 :=
  ⟨((crawl_stops_at_twenty crawlWitnessList).2.1 (by decide)).1,
    (crawl_stops_at_twenty crawlWitnessList).2.2 (List.replicate 19 "a.txt")
      (by decide) (by decide)⟩
